import Mathlib

/-!
Shallow embedding of the character-information API router of this repository
(`voicevox_engine/app/routers/character.py`) and of the metadata models
(`voicevox_engine/metas/Metas.py`), together with spec-modelled versions of the
collaborators whose code is not part of the excerpt (the core registry
`CoreManager`, the metadata store `MetasStore` and the content-addressed
`ResourceManager`).  File contents are modelled as lists of byte values,
filesystems and registries as association lists.
-/

/-- The style-type literal of `Metas.py`: `StyleType = Literal["talk", "singing_teacher", "frame_decode", "sing"]`. -/
inductive StyleType where
  | talk
  | singing_teacher
  | frame_decode
  | sing
deriving Repr, DecidableEq

/-- The `SpeakerStyle` pydantic model of `Metas.py`.  The `type` field carries the
pydantic default `"talk"`, embedded as a default field value. -/
structure SpeakerStyle where
  name : String
  id : Nat
  type : StyleType := StyleType.talk
deriving Repr, DecidableEq

/-- The `permitted_synthesis_morphing` literal of `Metas.py`. -/
inductive MorphingPolicy where
  | ALL
  | SELF_ONLY
  | NOTHING
deriving Repr, DecidableEq

/-- The `SpeakerSupportedFeatures` pydantic model of `Metas.py`, default `ALL`. -/
structure SpeakerSupportedFeatures where
  permitted_synthesis_morphing : MorphingPolicy := MorphingPolicy.ALL
deriving Repr, DecidableEq

/-- The `Speaker` pydantic model of `Metas.py`. -/
structure Speaker where
  name : String
  speaker_uuid : String
  styles : List SpeakerStyle
  version : String
  supported_features : SpeakerSupportedFeatures
deriving Repr, DecidableEq

/-- The `StyleInfo` pydantic model of `Metas.py`: each resource field already
resolved to a string (base64 payload or URL). -/
structure StyleInfo where
  id : Nat
  icon : String
  portrait : Option String := none
  voice_samples : List String
deriving Repr, DecidableEq

/-- The `SpeakerInfo` pydantic model of `Metas.py`. -/
structure SpeakerInfo where
  policy : String
  portrait : String
  style_infos : List StyleInfo
deriving Repr, DecidableEq

/-- Modelled from the spec: the `Character` record owned by `MetasStore`
(`MetasStore.py` is not part of the excerpt).  Fields are those read by the
router: `uuid`, `name`, `talk_styles`, `sing_styles`, `version`,
`supported_features`. -/
structure Character where
  name : String
  uuid : String
  talk_styles : List SpeakerStyle
  sing_styles : List SpeakerStyle
  version : String
  supported_features : SpeakerSupportedFeatures
deriving Repr, DecidableEq

/-- The `ResourceFormat` literal of `MetasStore.py`: `"base64"` or `"url"`. -/
inductive ResourceFormat where
  | base64
  | url
deriving Repr, DecidableEq

/-- The capability a query is bound to (`talk_or_sing` in the source, the
two-value string literal `"talk"` / `"sing"`). -/
inductive Capability where
  | talk
  | sing
deriving Repr, DecidableEq

/-- Errors raised by the modelled collaborators, per the spec's error taxonomy. -/
inductive ApiError where
  | UnknownVersion
  | UnknownCharacter
  | AssetUnreadable
deriving Repr, DecidableEq

/-- The `ResourceManagerError` exception of `resource_manager.py`. -/
inductive ResourceManagerError where
  | UnknownResource
deriving Repr, DecidableEq

/-- The boundary error of the router's resource endpoint:
`HTTPException(status_code=404)`. -/
inductive RouterError where
  | HTTPException (status_code : Nat)
deriving Repr, DecidableEq

/-- A filesystem model: association list from path to file bytes. -/
def FileSystem : Type := List (String × List Nat)

/-- Modelled from the spec: the core registry (`core_initializer.py` is not part
of the excerpt).  A core exposes a fixed character list. -/
structure Core where
  characters : List Character
deriving Repr, DecidableEq

/-- Modelled from the spec: `CoreManager` tracks loaded cores keyed by version. -/
structure CoreManager where
  cores : List (String × Core)
deriving Repr, DecidableEq

/-- Modelled from the spec: `CoreManager.latest_version` — the registry defines a
total order over loaded versions and exposes the maximum. -/
def CoreManager.latest_version (cm : CoreManager) : String :=
  match cm.cores.map Prod.fst with
  | [] => ""
  | v :: vs => vs.foldl max v

/-- Modelled from the spec: `CoreManager.get_core` fails with `UnknownVersion`
if the version does not match any loaded core. -/
def CoreManager.get_core (cm : CoreManager) (version : String) : Except ApiError Core :=
  match cm.cores.find? (fun p => p.fst == version) with
  | some p => Except.ok p.snd
  | none => Except.error ApiError.UnknownVersion

/-- Modelled from the spec: `ResourceManager` maps issued content hashes to
filesystem paths. -/
structure ResourceManager where
  paths : List (String × String)
deriving Repr, DecidableEq

/-- Modelled from the spec: `ResourceManager.resource_path` resolves a hash to a
path and fails with a `ResourceManagerError` if the hash was never issued. -/
def ResourceManager.resource_path (rm : ResourceManager) (resource_hash : String) :
    Except ResourceManagerError String :=
  match rm.paths.find? (fun p => p.fst == resource_hash) with
  | some p => Except.ok p.snd
  | none => Except.error ResourceManagerError.UnknownResource

/-- The base64 alphabet. -/
def base64Alphabet : List Char :=
  "ABCDEFGHIJKLMNOPQRSTUVWXYZabcdefghijklmnopqrstuvwxyz0123456789+/".toList

/-- Character of the base64 alphabet at a 6-bit index. -/
def base64Char (n : Nat) : Char :=
  base64Alphabet.getD (n % 64) 'A'

/-- Standard base64 encoding of a byte list, grouping three bytes into four
six-bit characters with `=` padding. -/
def base64EncodeAux : List Nat → List Char
  | [] => []
  | [b1] =>
      [base64Char (b1 / 4), base64Char (b1 % 4 * 16), '=', '=']
  | [b1, b2] =>
      [base64Char (b1 / 4), base64Char (b1 % 4 * 16 + b2 / 16),
       base64Char (b2 % 16 * 4), '=']
  | b1 :: b2 :: b3 :: rest =>
      base64Char (b1 / 4) :: base64Char (b1 % 4 * 16 + b2 / 16) ::
      base64Char (b2 % 16 * 4 + b3 / 64) :: base64Char (b3 % 64) ::
      base64EncodeAux rest

/-- Base64 encoding of file bytes as a string. -/
def base64Encode (bytes : List Nat) : String :=
  String.mk (base64EncodeAux bytes)

/-- Hexadecimal digit for a value below 16. -/
def hexDigit (n : Nat) : Char :=
  "0123456789abcdef".toList.getD (n % 16) '0'

/-- Modelled from the spec: the content hash issued by the resource manager — a
deterministic opaque string derived from the file's bytes (modelled as the hex
dump of the content). -/
def contentHash (bytes : List Nat) : String :=
  String.mk (bytes.foldr (fun b acc => hexDigit (b / 16) :: hexDigit b :: acc) [])

/-- Modelled from the spec: resolve one resource reference, either inlining the
base64-encoded bytes or emitting a store-backed URL embedding the content hash;
an unreadable asset fails the call with `AssetUnreadable`. -/
def resolveResource (fs : FileSystem) (resource_baseurl : String)
    (resource_format : ResourceFormat) (path : String) : Except ApiError String :=
  match List.lookup path fs with
  | none => Except.error ApiError.AssetUnreadable
  | some bytes =>
      match resource_format with
      | ResourceFormat.base64 => Except.ok (base64Encode bytes)
      | ResourceFormat.url => Except.ok (resource_baseurl ++ "/" ++ contentHash bytes)

/-- Modelled from the spec: per-style asset paths held by the metadata store. -/
structure StyleAssets where
  icon_path : String
  portrait_path : Option String := none
  voice_sample_paths : List String
deriving Repr, DecidableEq

/-- Modelled from the spec: per-character asset paths and policy text held by
the metadata store. -/
structure CharacterAssets where
  policy : String
  portrait_path : String
  style_assets : List (Nat × StyleAssets)
deriving Repr, DecidableEq

/-- Modelled from the spec: the metadata store (`MetasStore.py` is not part of
the excerpt), holding per-character assets and the asset filesystem. -/
structure MetasStore where
  character_assets : List (String × CharacterAssets)
  fs : FileSystem

/-- Modelled from the spec: `MetasStore.talk_characters` keeps exactly the
characters with at least one talk style. -/
def MetasStore.talk_characters (_ms : MetasStore) (characters : List Character) :
    List Character :=
  characters.filter (fun c => !c.talk_styles.isEmpty)

/-- Modelled from the spec: `MetasStore.sing_characters` keeps exactly the
characters with at least one sing style. -/
def MetasStore.sing_characters (_ms : MetasStore) (characters : List Character) :
    List Character :=
  characters.filter (fun c => !c.sing_styles.isEmpty)

/-- Modelled from the spec: assemble the detail record for one style, resolving
icon, optional portrait and voice samples. -/
def styleDetail (fs : FileSystem) (resource_baseurl : String)
    (resource_format : ResourceFormat) (style_assets : List (Nat × StyleAssets))
    (st : SpeakerStyle) : Except ApiError StyleInfo := do
  match List.lookup st.id style_assets with
  | none => Except.error ApiError.AssetUnreadable
  | some sa => do
      let icon ← resolveResource fs resource_baseurl resource_format sa.icon_path
      let portrait ← match sa.portrait_path with
        | none => pure none
        | some p => Except.map some (resolveResource fs resource_baseurl resource_format p)
      let samples ← sa.voice_sample_paths.mapM
        (resolveResource fs resource_baseurl resource_format)
      pure { id := st.id, icon := icon, portrait := portrait, voice_samples := samples }

/-- Modelled from the spec: `MetasStore.character_info` — capability-filtered
lookup of the character by uuid (`UnknownCharacter` when absent), then assembly
of the detail record restricted to the requested capability's styles. -/
def MetasStore.character_info (ms : MetasStore) (character_uuid : String)
    (talk_or_sing : Capability) (core_characters : List Character)
    (resource_baseurl : String) (resource_format : ResourceFormat) :
    Except ApiError SpeakerInfo := do
  let filtered := match talk_or_sing with
    | Capability.talk => ms.talk_characters core_characters
    | Capability.sing => ms.sing_characters core_characters
  match filtered.find? (fun c => c.uuid == character_uuid) with
  | none => Except.error ApiError.UnknownCharacter
  | some character =>
      match List.lookup character.uuid ms.character_assets with
      | none => Except.error ApiError.AssetUnreadable
      | some assets => do
          let capStyles := match talk_or_sing with
            | Capability.talk => character.talk_styles
            | Capability.sing => character.sing_styles
          let portrait ← resolveResource ms.fs resource_baseurl resource_format
            assets.portrait_path
          let styleInfos ← capStyles.mapM
            (styleDetail ms.fs resource_baseurl resource_format assets.style_assets)
          pure { policy := assets.policy, portrait := portrait, style_infos := styleInfos }

/-- Embedding of Python's `x or y` for an optional string: `None` and the empty
string are falsy and fall through to the default. -/
def strOrElse (v : Option String) (dflt : String) : String :=
  match v with
  | none => dflt
  | some s => if s = "" then dflt else s

/-- The `_characters_to_speakers` helper of `character.py`: cast each character
to a `Speaker` whose `styles` is `talk_styles + sing_styles`. -/
def _characters_to_speakers (characters : List Character) : List Speaker :=
  characters.map
    (fun character =>
      { name := character.name
        speaker_uuid := character.uuid
        styles := character.talk_styles ++ character.sing_styles
        version := character.version
        supported_features := character.supported_features })

/-- The `/speakers` route handler of `character.py`. -/
def speakers (core_manager : CoreManager) (metas_store : MetasStore)
    (core_version : Option String := none) : Except ApiError (List Speaker) := do
  let version := strOrElse core_version core_manager.latest_version
  let core ← core_manager.get_core version
  let characters := metas_store.talk_characters core.characters
  pure (_characters_to_speakers characters)

/-- The `/speaker_info` route handler of `character.py`: capability `talk`,
`resource_format` defaulting to `base64`. -/
def speaker_info (core_manager : CoreManager) (metas_store : MetasStore)
    (resource_baseurl : String) (speaker_uuid : String)
    (resource_format : ResourceFormat := ResourceFormat.base64)
    (core_version : Option String := none) : Except ApiError SpeakerInfo := do
  let version := strOrElse core_version core_manager.latest_version
  let core ← core_manager.get_core version
  metas_store.character_info speaker_uuid Capability.talk core.characters
    resource_baseurl resource_format

/-- The `/singers` route handler of `character.py`. -/
def singers (core_manager : CoreManager) (metas_store : MetasStore)
    (core_version : Option String := none) : Except ApiError (List Speaker) := do
  let version := strOrElse core_version core_manager.latest_version
  let core ← core_manager.get_core version
  let characters := metas_store.sing_characters core.characters
  pure (_characters_to_speakers characters)

/-- The `/singer_info` route handler of `character.py`: capability `sing`,
`resource_format` defaulting to `base64`. -/
def singer_info (core_manager : CoreManager) (metas_store : MetasStore)
    (resource_baseurl : String) (speaker_uuid : String)
    (resource_format : ResourceFormat := ResourceFormat.base64)
    (core_version : Option String := none) : Except ApiError SpeakerInfo := do
  let version := strOrElse core_version core_manager.latest_version
  let core ← core_manager.get_core version
  metas_store.character_info speaker_uuid Capability.sing core.characters
    resource_baseurl resource_format

/-- The `FileResponse` returned by the resource endpoint: the served file's
path and the response headers. -/
structure FileResponse where
  path : String
  headers : List (String × String)
deriving Repr, DecidableEq

/-- The `/_resources/{resource_hash}` route handler of `character.py`: resolve
the hash, turn a `ResourceManagerError` into `HTTPException(404)`, and on
success serve the file with a 30-day `Cache-Control` header. -/
def resources (resource_manager : ResourceManager) (resource_hash : String) :
    Except RouterError FileResponse :=
  match resource_manager.resource_path resource_hash with
  | Except.error _ => Except.error (RouterError.HTTPException 404)
  | Except.ok resource_path =>
      Except.ok { path := resource_path
                  headers := [("Cache-Control", "max-age=2592000")] }

/-- The bytes a `FileResponse` serves: the content of the file at its path. -/
def serveFile (fs : FileSystem) (resp : FileResponse) : Option (List Nat) :=
  List.lookup resp.path fs

/-! ## Concrete fixtures used by witnesses and counterexamples -/

/-- A talk style with default type. -/
def styleNormal : SpeakerStyle := { name := "Normal", id := 0 }

/-- A character with one talk style and no sing styles. -/
def charTalkOnly : Character :=
  { name := "A", uuid := "abc", talk_styles := [styleNormal], sing_styles := [],
    version := "1.0.0", supported_features := {} }

/-- A core exposing just `charTalkOnly`. -/
def coreOne : Core := { characters := [charTalkOnly] }

/-- A registry with the single loaded version 1.0.0. -/
def cmOne : CoreManager := { cores := [("1.0.0", coreOne)] }

/-- Complete assets for `charTalkOnly`. -/
def assetsAbc : CharacterAssets :=
  { policy := "policy", portrait_path := "portrait.png",
    style_assets := [(0, { icon_path := "icon.png", voice_sample_paths := [] })] }

/-- A filesystem holding the two asset files of `assetsAbc`. -/
def fsOne : FileSystem := [("portrait.png", [1, 2, 3]), ("icon.png", [4, 5])]

/-- A metadata store with complete assets for `charTalkOnly`. -/
def msOne : MetasStore := { character_assets := [("abc", assetsAbc)], fs := fsOne }

/-- An empty metadata store. -/
def msEmpty : MetasStore := { character_assets := [], fs := [] }

/-! ## Claim theorems -/

/-- C10: a style constructed without an explicit `type` defaults to `talk`, and
every `SpeakerStyle` carries one of the four type values. -/
theorem style_type_defaults_talk :
    ∀ (n : String) (i : Nat),
      ({ name := n, id := i } : SpeakerStyle).type = StyleType.talk ∧
      ∀ s : SpeakerStyle,
        s.type = StyleType.talk ∨ s.type = StyleType.singing_teacher ∨
        s.type = StyleType.frame_decode ∨ s.type = StyleType.sing := by
  intro n i
  refine ⟨rfl, ?_⟩
  intro s
  cases s with
  | mk name id type => cases type <;> simp

/-- C9: an empty-string `core_version` is treated the same as an absent one on
all four listing and detail queries — the Python truthiness fallback. -/
theorem empty_version_treated_as_absent :
    ∀ (cm : CoreManager) (ms : MetasStore) (rb u : String) (fmt : ResourceFormat),
      speakers cm ms (some "") = speakers cm ms none ∧
      singers cm ms (some "") = singers cm ms none ∧
      speaker_info cm ms rb u fmt (some "") = speaker_info cm ms rb u fmt none ∧
      singer_info cm ms rb u fmt (some "") = singer_info cm ms rb u fmt none := by
  intro cm ms rb u fmt
  exact ⟨rfl, rfl, rfl, rfl⟩

/-- C8: in both detail queries, an unsupplied `resource_format` defaults to
`base64`, which is distinct from `url`. -/
theorem resource_format_defaults_base64 :
    ∀ (cm : CoreManager) (ms : MetasStore) (rb u : String),
      speaker_info cm ms rb u = speaker_info cm ms rb u ResourceFormat.base64 ∧
      singer_info cm ms rb u = singer_info cm ms rb u ResourceFormat.base64 ∧
      ResourceFormat.base64 ≠ ResourceFormat.url := by
  intro cm ms rb u
  exact ⟨rfl, rfl, by decide⟩

/-! ## Helper lemmas -/

/-- The initial value is below a `foldl max`. -/
theorem le_foldl_max {α : Type} [LinearOrder α] (l : List α) (a : α) :
    a ≤ l.foldl max a := by
  induction l generalizing a with
  | nil => exact le_refl a
  | cons b t ih => exact le_trans (le_max_left a b) (ih (max a b))

/-- Every member of a list is below its `foldl max`. -/
theorem mem_le_foldl_max {α : Type} [LinearOrder α] (l : List α) (a v : α)
    (hv : v ∈ l) : v ≤ l.foldl max a := by
  induction l generalizing a with
  | nil => cases hv
  | cons b t ih =>
    rcases List.mem_cons.mp hv with h | h
    · subst h
      exact le_trans (le_max_right a v) (le_foldl_max t (max a v))
    · exact ih (max a b) h

/-- A `foldl max` is the initial value or a member of the list. -/
theorem foldl_max_mem {α : Type} [LinearOrder α] (l : List α) (a : α) :
    l.foldl max a = a ∨ l.foldl max a ∈ l := by
  induction l generalizing a with
  | nil => exact Or.inl rfl
  | cons b t ih =>
    rcases ih (max a b) with h | h
    · rcases max_choice a b with hm | hm
      · exact Or.inl (by rw [List.foldl_cons, h, hm])
      · refine Or.inr ?_
        rw [List.foldl_cons, h, hm]
        exact List.mem_cons_self b t
    · exact Or.inr (List.mem_cons_of_mem b h)

/-- `latest_version` is an upper bound of the loaded versions and, when at
least one core is loaded, is itself a loaded version. -/
theorem latest_version_is_max (cm : CoreManager) :
    (∀ v ∈ cm.cores.map Prod.fst, v ≤ cm.latest_version) ∧
    (cm.cores ≠ [] → cm.latest_version ∈ cm.cores.map Prod.fst) := by
  cases hm : cm.cores.map Prod.fst with
  | nil =>
    constructor
    · intro v hv
      cases hv
    · intro hne
      exact absurd (List.map_eq_nil_iff.mp hm) hne
  | cons b t =>
    have hl : cm.latest_version = t.foldl max b := by
      unfold CoreManager.latest_version
      rw [hm]
    constructor
    · intro v hv
      rw [hl]
      rcases List.mem_cons.mp hv with h | h
      · subst h
        exact le_foldl_max t v
      · exact mem_le_foldl_max t b v h
    · intro _
      rw [hl]
      rcases foldl_max_mem t b with h | h
      · rw [h]
        exact List.mem_cons_self b t
      · exact List.mem_cons_of_mem b h

/-- C3: with `core_version` absent, each of the four queries is resolved
against the latest loaded version, the maximum of the registry's version
order. -/
theorem absent_version_resolves_latest :
    ∀ (cm : CoreManager) (ms : MetasStore) (rb u : String) (fmt : ResourceFormat),
      speakers cm ms none = speakers cm ms (some cm.latest_version) ∧
      singers cm ms none = singers cm ms (some cm.latest_version) ∧
      speaker_info cm ms rb u fmt none =
        speaker_info cm ms rb u fmt (some cm.latest_version) ∧
      singer_info cm ms rb u fmt none =
        singer_info cm ms rb u fmt (some cm.latest_version) ∧
      (∀ v ∈ cm.cores.map Prod.fst, v ≤ cm.latest_version) ∧
      (cm.cores ≠ [] → cm.latest_version ∈ cm.cores.map Prod.fst) := by
  intro cm ms rb u fmt
  have hs : strOrElse (some cm.latest_version) cm.latest_version = cm.latest_version := by
    simp [strOrElse]
  refine ⟨?_, ?_, ?_, ?_, (latest_version_is_max cm).1, (latest_version_is_max cm).2⟩ <;>
    simp [speakers, singers, speaker_info, singer_info, hs, strOrElse]

/-- C3 witness: on the one-core registry, the latest version is a loaded
version and bounds the loaded version 1.0.0. -/
theorem absent_version_resolves_latest_witness :
    cmOne.latest_version ∈ cmOne.cores.map Prod.fst ∧
    "1.0.0" ≤ cmOne.latest_version :=
  ⟨(absent_version_resolves_latest cmOne msOne "rb" "abc"
      ResourceFormat.base64).2.2.2.2.2 (by simp [cmOne]),
   (absent_version_resolves_latest cmOne msOne "rb" "abc"
      ResourceFormat.base64).2.2.2.2.1 "1.0.0" (by simp [cmOne])⟩

/-- C4 (amended): for every non-absent, non-empty `core_version` matching no
loaded core, each of the four queries fails with `UnknownVersion`, whatever
the metadata store, uuid or format — core resolution precedes any metadata
lookup. -/
theorem unknown_version_fails_before_lookup :
    ∀ (cm : CoreManager) (ms : MetasStore) (rb u : String) (fmt : ResourceFormat)
      (v : String),
      v ≠ "" → (∀ p ∈ cm.cores, p.fst ≠ v) →
      speakers cm ms (some v) = Except.error ApiError.UnknownVersion ∧
      singers cm ms (some v) = Except.error ApiError.UnknownVersion ∧
      speaker_info cm ms rb u fmt (some v) = Except.error ApiError.UnknownVersion ∧
      singer_info cm ms rb u fmt (some v) = Except.error ApiError.UnknownVersion := by
  intro cm ms rb u fmt v hne hnomatch
  have hs : strOrElse (some v) cm.latest_version = v := by
    simp [strOrElse, hne]
  have hfind : cm.cores.find? (fun p => p.fst == v) = none := by
    apply List.find?_eq_none.mpr
    intro p hp
    simpa using hnomatch p hp
  have hget : cm.get_core v = Except.error ApiError.UnknownVersion := by
    simp [CoreManager.get_core, hfind]
  refine ⟨?_, ?_, ?_, ?_⟩ <;>
    simp [speakers, singers, speaker_info, singer_info, hs, hget, Bind.bind, Except.bind]

/-- C4 witness: version 9.9.9 is not loaded in the one-core registry, so all
four queries fail with `UnknownVersion`. -/
theorem unknown_version_fails_before_lookup_witness :
    speakers cmOne msEmpty (some "9.9.9") = Except.error ApiError.UnknownVersion ∧
    singers cmOne msEmpty (some "9.9.9") = Except.error ApiError.UnknownVersion ∧
    speaker_info cmOne msEmpty "rb" "abc" ResourceFormat.base64 (some "9.9.9") =
      Except.error ApiError.UnknownVersion ∧
    singer_info cmOne msEmpty "rb" "abc" ResourceFormat.base64 (some "9.9.9") =
      Except.error ApiError.UnknownVersion :=
  unknown_version_fails_before_lookup cmOne msEmpty "rb" "abc"
    ResourceFormat.base64 "9.9.9" (by decide) (by decide)

/-- C4 counterexample: the empty string is a non-absent version matching no
loaded core, yet `speakers` does not fail with `UnknownVersion` on it — the
truthiness fallback resolves it to the latest version instead. -/
theorem unknown_version_counterexample :
    (∀ p ∈ cmOne.cores, p.fst ≠ "") ∧
    speakers cmOne msEmpty (some "") ≠ Except.error ApiError.UnknownVersion := by
  constructor
  · decide
  · have h : speakers cmOne msEmpty (some "") =
        Except.ok [{ name := "A", speaker_uuid := "abc", styles := [styleNormal],
                     version := "1.0.0", supported_features := {} }] := rfl
    rw [h]
    intro hcontra
    exact Except.noConfusion hcontra

/-- C2: a hash never issued by the resource manager yields a 404 outcome; the
endpoint raises 404 exactly when hash resolution fails, and it always returns
a response or that 404 — it never crashes. -/
theorem unknown_resource_yields_404 :
    ∀ (rm : ResourceManager) (hsh : String),
      ((∀ p ∈ rm.paths, p.fst ≠ hsh) →
        resources rm hsh = Except.error (RouterError.HTTPException 404)) ∧
      (resources rm hsh = Except.error (RouterError.HTTPException 404) ↔
        ∃ e, rm.resource_path hsh = Except.error e) ∧
      ((∃ r, resources rm hsh = Except.ok r) ∨
        resources rm hsh = Except.error (RouterError.HTTPException 404)) := by
  intro rm hsh
  refine ⟨?_, ?_, ?_⟩
  · intro hnone
    have hfind : rm.paths.find? (fun p => p.fst == hsh) = none := by
      apply List.find?_eq_none.mpr
      intro p hp
      simpa using hnone p hp
    simp [resources, ResourceManager.resource_path, hfind]
  · constructor
    · intro h
      cases hrp : rm.resource_path hsh with
      | error e => exact ⟨e, rfl⟩
      | ok p => simp [resources, hrp] at h
    · rintro ⟨e, he⟩
      simp [resources, he]
  · cases hrp : rm.resource_path hsh with
    | error e => exact Or.inr (by simp [resources, hrp])
    | ok p =>
      exact Or.inl ⟨{ path := p, headers := [("Cache-Control", "max-age=2592000")] },
        by simp [resources, hrp]⟩

/-- C2 witness: the hash deadbeef was never issued by a manager holding one
other hash, and fetching it yields the 404 outcome. -/
theorem unknown_resource_yields_404_witness :
    resources { paths := [("cafe", "portrait.png")] } "deadbeef" =
      Except.error (RouterError.HTTPException 404) :=
  (unknown_resource_yields_404 { paths := [("cafe", "portrait.png")] } "deadbeef").1
    (by decide)

/-- C7: a successful resource fetch serves the file at the resolved path with a
`Cache-Control` max-age of 2592000 seconds, that is 30 days. -/
theorem resource_success_cache_directive :
    ∀ (rm : ResourceManager) (hsh p : String) (fs : FileSystem),
      rm.resource_path hsh = Except.ok p →
      ∃ resp, resources rm hsh = Except.ok resp ∧ resp.path = p ∧
        List.lookup "Cache-Control" resp.headers = some "max-age=2592000" ∧
        serveFile fs resp = List.lookup p fs ∧
        2592000 = 30 * 24 * 60 * 60 := by
  intro rm hsh p fs hok
  refine ⟨{ path := p, headers := [("Cache-Control", "max-age=2592000")] },
    ?_, rfl, rfl, rfl, by norm_num⟩
  simp [resources, hok]

/-- C7 witness: fetching an issued hash serves the registered portrait file
with the 30-day cache directive. -/
theorem resource_success_cache_directive_witness :
    ∃ resp, resources { paths := [("cafe", "portrait.png")] } "cafe" = Except.ok resp ∧
      resp.path = "portrait.png" ∧
      List.lookup "Cache-Control" resp.headers = some "max-age=2592000" ∧
      serveFile fsOne resp = List.lookup "portrait.png" fsOne ∧
      2592000 = 30 * 24 * 60 * 60 :=
  resource_success_cache_directive { paths := [("cafe", "portrait.png")] } "cafe"
    "portrait.png" fsOne rfl

/-- On a filtered list, `find?` locates the unique element matching the key,
provided that element survives the filter. -/
theorem find?_filter_unique {α : Type} (l : List α) (q pr : α → Bool) (c : α)
    (hc : c ∈ l) (hq : q c = true) (hp : pr c = true)
    (huniq : ∀ x ∈ l, pr x = true → x = c) :
    (l.filter q).find? pr = some c := by
  induction l with
  | nil => cases hc
  | cons a t ih =>
    rcases List.mem_cons.mp hc with h | h
    · subst h
      rw [List.filter_cons_of_pos hq, List.find?_cons_of_pos _ hp]
    · by_cases hqa : q a = true
      · rw [List.filter_cons_of_pos hqa]
        by_cases hpa : pr a = true
        · have ha : a = c := huniq a (List.mem_cons_self a t) hpa
          subst ha
          rw [List.find?_cons_of_pos _ hpa]
        · rw [List.find?_cons_of_neg _ hpa]
          exact ih h (fun x hx hpx => huniq x (List.mem_cons_of_mem a hx) hpx)
      · rw [List.filter_cons_of_neg hqa]
        exact ih h (fun x hx hpx => huniq x (List.mem_cons_of_mem a hx) hpx)

/-- On a filtered list, `find?` misses when every element matching the key is
dropped by the filter. -/
theorem find?_filter_none {α : Type} (l : List α) (q pr : α → Bool)
    (h : ∀ x ∈ l, pr x = true → q x = false) :
    (l.filter q).find? pr = none := by
  induction l with
  | nil => rfl
  | cons a t ih =>
    by_cases hqa : q a = true
    · rw [List.filter_cons_of_pos hqa]
      have hpa : ¬ pr a = true := by
        intro hcon
        rw [h a (List.mem_cons_self a t) hcon] at hqa
        cases hqa
      rw [List.find?_cons_of_neg _ hpa]
      exact ih (fun x hx hpx => h x (List.mem_cons_of_mem a hx) hpx)
    · rw [List.filter_cons_of_neg hqa]
      exact ih (fun x hx hpx => h x (List.mem_cons_of_mem a hx) hpx)

/-- C1: every entry returned by `speakers` or by `singers` carries as `styles`
the concatenation of the underlying character's talk styles followed by its
sing styles, whichever capability was queried. -/
theorem listing_styles_full_concat :
    ∀ (cm : CoreManager) (ms : MetasStore) (v : Option String) (out : List Speaker)
      (s : Speaker),
      (speakers cm ms v = Except.ok out ∨ singers cm ms v = Except.ok out) →
      s ∈ out →
      ∃ core c, cm.get_core (strOrElse v cm.latest_version) = Except.ok core ∧
        c ∈ core.characters ∧ s.name = c.name ∧ s.speaker_uuid = c.uuid ∧
        s.styles = c.talk_styles ++ c.sing_styles := by
  intro cm ms v out s hq hs
  rcases hq with hq | hq
  · cases hget : cm.get_core (strOrElse v cm.latest_version) with
    | error e => simp [speakers, hget, Bind.bind, Except.bind] at hq
    | ok core =>
      simp only [speakers, hget, Bind.bind, Except.bind, Pure.pure, Except.pure,
        Except.ok.injEq] at hq
      rw [← hq] at hs
      simp only [_characters_to_speakers, List.mem_map] at hs
      rcases hs with ⟨c, hcf, hproj⟩
      have hc : c ∈ core.characters := (List.mem_filter.mp hcf).1
      subst hproj
      exact ⟨core, c, rfl, hc, rfl, rfl, rfl⟩
  · cases hget : cm.get_core (strOrElse v cm.latest_version) with
    | error e => simp [singers, hget, Bind.bind, Except.bind] at hq
    | ok core =>
      simp only [singers, hget, Bind.bind, Except.bind, Pure.pure, Except.pure,
        Except.ok.injEq] at hq
      rw [← hq] at hs
      simp only [_characters_to_speakers, List.mem_map] at hs
      rcases hs with ⟨c, hcf, hproj⟩
      have hc : c ∈ core.characters := (List.mem_filter.mp hcf).1
      subst hproj
      exact ⟨core, c, rfl, hc, rfl, rfl, rfl⟩

/-- C1 witness: the speaker listed for the talk-only character carries its
talk styles followed by its (empty) sing styles. -/
theorem listing_styles_full_concat_witness :
    ∃ core c, cmOne.get_core (strOrElse none cmOne.latest_version) = Except.ok core ∧
      c ∈ core.characters ∧
      ({ name := "A", speaker_uuid := "abc", styles := [styleNormal],
         version := "1.0.0", supported_features := {} } : Speaker).name = c.name ∧
      ({ name := "A", speaker_uuid := "abc", styles := [styleNormal],
         version := "1.0.0", supported_features := {} } : Speaker).speaker_uuid = c.uuid ∧
      ({ name := "A", speaker_uuid := "abc", styles := [styleNormal],
         version := "1.0.0", supported_features := {} } : Speaker).styles =
        c.talk_styles ++ c.sing_styles :=
  listing_styles_full_concat cmOne msOne none
    [{ name := "A", speaker_uuid := "abc", styles := [styleNormal],
       version := "1.0.0", supported_features := {} }]
    { name := "A", speaker_uuid := "abc", styles := [styleNormal],
      version := "1.0.0", supported_features := {} }
    (Or.inl rfl) (by decide)

/-- C6: `speakers` lists exactly the characters with a non-empty talk-style
list and `singers` exactly those with a non-empty sing-style list, both
projected with the full concatenated style list. -/
theorem capability_filter_membership :
    ∀ (cm : CoreManager) (ms : MetasStore) (v : Option String) (core : Core),
      cm.get_core (strOrElse v cm.latest_version) = Except.ok core →
      ∃ outT outS, speakers cm ms v = Except.ok outT ∧
        singers cm ms v = Except.ok outS ∧
        (∀ s : Speaker, s ∈ outT ↔ ∃ c, c ∈ core.characters ∧ c.talk_styles ≠ [] ∧
          s = { name := c.name, speaker_uuid := c.uuid,
                styles := c.talk_styles ++ c.sing_styles, version := c.version,
                supported_features := c.supported_features }) ∧
        (∀ s : Speaker, s ∈ outS ↔ ∃ c, c ∈ core.characters ∧ c.sing_styles ≠ [] ∧
          s = { name := c.name, speaker_uuid := c.uuid,
                styles := c.talk_styles ++ c.sing_styles, version := c.version,
                supported_features := c.supported_features }) := by
  intro cm ms v core hget
  refine ⟨_characters_to_speakers (ms.talk_characters core.characters),
          _characters_to_speakers (ms.sing_characters core.characters),
          by simp [speakers, hget, Bind.bind, Except.bind, Pure.pure, Except.pure],
          by simp [singers, hget, Bind.bind, Except.bind, Pure.pure, Except.pure],
          ?_, ?_⟩
  · intro s
    simp only [_characters_to_speakers, MetasStore.talk_characters, List.mem_map,
      List.mem_filter, Bool.not_eq_true', List.isEmpty_eq_false]
    constructor
    · rintro ⟨c, ⟨hc, hne⟩, hproj⟩
      exact ⟨c, hc, hne, hproj.symm⟩
    · rintro ⟨c, hc, hne, hproj⟩
      exact ⟨c, ⟨hc, hne⟩, hproj.symm⟩
  · intro s
    simp only [_characters_to_speakers, MetasStore.sing_characters, List.mem_map,
      List.mem_filter, Bool.not_eq_true', List.isEmpty_eq_false]
    constructor
    · rintro ⟨c, ⟨hc, hne⟩, hproj⟩
      exact ⟨c, hc, hne, hproj.symm⟩
    · rintro ⟨c, hc, hne, hproj⟩
      exact ⟨c, ⟨hc, hne⟩, hproj.symm⟩

/-- C6 witness: on the core holding only the talk-only character, the
membership characterisations hold at the resolved core. -/
theorem capability_filter_membership_witness :
    ∃ outT outS, speakers cmOne msOne none = Except.ok outT ∧
      singers cmOne msOne none = Except.ok outS ∧
      (∀ s : Speaker, s ∈ outT ↔ ∃ c, c ∈ coreOne.characters ∧ c.talk_styles ≠ [] ∧
        s = { name := c.name, speaker_uuid := c.uuid,
              styles := c.talk_styles ++ c.sing_styles, version := c.version,
              supported_features := c.supported_features }) ∧
      (∀ s : Speaker, s ∈ outS ↔ ∃ c, c ∈ coreOne.characters ∧ c.sing_styles ≠ [] ∧
        s = { name := c.name, speaker_uuid := c.uuid,
              styles := c.talk_styles ++ c.sing_styles, version := c.version,
              supported_features := c.supported_features }) :=
  capability_filter_membership cmOne msOne none coreOne rfl

/-- C5: `speaker_info` looks characters up under capability talk and
`singer_info` under capability sing; for a uuid whose unique character has talk
styles but no sing styles, the talk lookup finds it, `singer_info` fails with
`UnknownCharacter`, and `speaker_info` succeeds whenever its asset resolution
does. -/
theorem talk_sing_capability_dichotomy :
    ∀ (cm : CoreManager) (ms : MetasStore) (rb u : String) (fmt : ResourceFormat)
      (v : Option String) (core : Core) (c : Character),
      cm.get_core (strOrElse v cm.latest_version) = Except.ok core →
      c ∈ core.characters → c.uuid = u → c.talk_styles ≠ [] → c.sing_styles = [] →
      (∀ c2 ∈ core.characters, c2.uuid = u → c2 = c) →
      (ms.character_info u Capability.talk core.characters rb fmt).isOk = true →
      ((ms.talk_characters core.characters).find? (fun c2 => c2.uuid == u) = some c ∧
        singer_info cm ms rb u fmt v = Except.error ApiError.UnknownCharacter ∧
        ∃ info, speaker_info cm ms rb u fmt v = Except.ok info) := by
  intro cm ms rb u fmt v core c hget hc huuid htalk hsing huniq hok
  have hfindT : (ms.talk_characters core.characters).find?
      (fun c2 => c2.uuid == u) = some c := by
    apply find?_filter_unique core.characters _ _ c hc
    · simpa [List.isEmpty_eq_false] using htalk
    · simpa using huuid
    · intro x hx hpx
      exact huniq x hx (by simpa using hpx)
  have hfindS : (ms.sing_characters core.characters).find?
      (fun c2 => c2.uuid == u) = none := by
    apply find?_filter_none
    intro x hx hpx
    have hx2 : x = c := huniq x hx (by simpa using hpx)
    subst hx2
    simp [hsing]
  refine ⟨hfindT, ?_, ?_⟩
  · simp only [singer_info, Bind.bind, Except.bind, hget]
    simp only [MetasStore.character_info, hfindS]
  · cases hci : ms.character_info u Capability.talk core.characters rb fmt with
    | error e => rw [hci] at hok; cases hok
    | ok info =>
      refine ⟨info, ?_⟩
      simp only [speaker_info, Bind.bind, Except.bind, hget]
      exact hci

/-- C5 witness: on the talk-only character, the talk lookup finds it,
`singer_info` fails with `UnknownCharacter` and `speaker_info` succeeds. -/
theorem talk_sing_capability_dichotomy_witness :
    (msOne.talk_characters coreOne.characters).find?
      (fun c2 => c2.uuid == "abc") = some charTalkOnly ∧
    singer_info cmOne msOne "rb" "abc" ResourceFormat.base64 none =
      Except.error ApiError.UnknownCharacter ∧
    ∃ info, speaker_info cmOne msOne "rb" "abc" ResourceFormat.base64 none =
      Except.ok info :=
  talk_sing_capability_dichotomy cmOne msOne "rb" "abc" ResourceFormat.base64 none
    coreOne charTalkOnly rfl (by decide) rfl (by decide) rfl (by decide) (by decide)
